import Mathlib

/-!
Verification of the chess-competition core (Game Engine, Match Controller,
Tournament head-to-head tracking) against its natural-language specification.

The definitions below are a shallow embedding of the TypeScript sources:
  - src/competition/web/src/lib/types.ts        (data model)
  - src/competition/web/src/App.tsx             (GameEngine class, playBotMatch,
                                                 trackHeadToHead, handleStartTournament)

The Rules Oracle (the chess.js library) is an external collaborator that the
repository consumes but does not implement; it is embedded as an abstract
structure of query functions over opaque serialized positions (FEN strings),
with the two derived predicates isDraw and isGameOver transcribed from the
chess.js contract the engine relies on (isGameOver = checkmate or stalemate
or draw; isDraw = fifty-move or stalemate or insufficient or repetition).

Workers (Agent Channels) are embedded as response scripts: for each bot turn
the environment supplies the latency and payload of the worker reply, and the
engine-side timeout race in requestMove is computed from that latency.
-/

/-! ## Data model (types.ts) -/

inductive Color where
  | w
  | b
deriving DecidableEq, Repr

def Color.other : Color → Color
  | Color.w => Color.b
  | Color.b => Color.w

inductive GameStatus where
  | idle
  | waitingHuman
  | running
  | paused
  | finished
deriving DecidableEq, Repr

inductive ForfeitReason where
  | invalid
  | timeout
deriving DecidableEq, Repr

/-- The non-null alternatives of the GameResult union in types.ts; the
TypeScript type also admits null, embedded as Option GameResultV. -/
inductive GameResultV where
  | checkmate (winner : Color)
  | stalemate
  | drawRepetition
  | drawInsufficient
  | draw50Move
  | forfeit (loser : Color) (reason : ForfeitReason)
deriving DecidableEq, Repr

abbrev GameResult := Option GameResultV

structure MoveRecord where
  moveNumber : Nat
  san : String
  uci : String
  fen : String
  color : Color
  timeMs : Nat
deriving DecidableEq, Repr

inductive PlayerType where
  | bot
  | human
deriving DecidableEq, Repr

structure BotInfo where
  username : String
  avatar : String
  forkUrl : String
deriving DecidableEq, Repr

structure PlayerInfo where
  ptype : PlayerType
  bot : Option BotInfo
deriving DecidableEq, Repr

structure GameState where
  status : GameStatus
  result : GameResult
  fen : String
  moves : List MoveRecord
  currentTurn : Color
  whitePlayer : Option PlayerInfo
  blackPlayer : Option PlayerInfo
  lastMoveTimeMs : Nat
  timeLimitMs : Nat
deriving DecidableEq, Repr

inductive GameWinReason where
  | checkmate
  | stalemate
  | timeout
  | invalidMove
  | drawRepetition
  | drawInsufficient
  | draw50Move
  | forfeit
  | timeAdvantage
deriving DecidableEq, Repr

structure MatchResult where
  winner : BotInfo
  loser : BotInfo
  reason : GameWinReason
deriving DecidableEq, Repr

/-! ## Rules Oracle (chess.js, consumed externally) -/

/-- The terminal-state queries chess.js answers about a position, plus the
side to move.  fiftyMoves stands for the halfMoves counter having reached
100 half-moves (the fifty-move rule), the only draw source of chess.js
isDraw not covered by the three named predicates. -/
structure PosFlags where
  isCheckmate : Bool
  isStalemate : Bool
  isThreefoldRepetition : Bool
  isInsufficientMaterial : Bool
  fiftyMoves : Bool
  turn : Color
deriving DecidableEq, Repr

/-- Result of a successful chess.js move() call: SAN text, the color that
moved, and the position after the move. -/
structure ChessMoveOut where
  san : String
  color : Color
  nextFen : String
deriving DecidableEq, Repr

/-- The Rules Oracle: terminal-state flags of a position and move
application.  move fen from to promotion returns none both when chess.js
move() returns a falsy value and when it throws (the engine treats the two
identically). -/
structure RulesOracle where
  flags : String → PosFlags
  move : String → String → String → Option String → Option ChessMoveOut

/-- chess.js isDraw(): fifty-move rule, stalemate, insufficient material or
threefold repetition. -/
def RulesOracle.isDraw (o : RulesOracle) (fen : String) : Bool :=
  let f := o.flags fen
  f.fiftyMoves || f.isStalemate || f.isInsufficientMaterial || f.isThreefoldRepetition

/-- chess.js isGameOver(): checkmate, stalemate or draw. -/
def RulesOracle.isGameOver (o : RulesOracle) (fen : String) : Bool :=
  let f := o.flags fen
  f.isCheckmate || f.isStalemate || o.isDraw fen

/-- Modelled from the spec: the Rules Oracle contract terminalReason
(section 4.1) classifies a terminal position as checkmate(winner),
stalemate, repetition, insufficientMaterial or fiftyMoveDraw; the winner of
a checkmate is the side opposite the side to move.  The spec lists the
alternatives without fixing an order for overlapping draw flags; the listed
order is used. -/
def terminalReason (o : RulesOracle) (fen : String) : GameResult :=
  let f := o.flags fen
  if f.isCheckmate then some (GameResultV.checkmate f.turn.other)
  else if f.isStalemate then some GameResultV.stalemate
  else if f.isThreefoldRepetition then some GameResultV.drawRepetition
  else if f.isInsufficientMaterial then some GameResultV.drawInsufficient
  else if f.fiftyMoves then some GameResultV.draw50Move
  else none

/-! ## Game Engine (GameEngine class) -/

def INITIAL_FEN : String := "rnbqkbnr/pppppppp/8/8/8/8/PPPPPPPP/RNBQKBNR w KQkq - 0 1"

/-- Engine-side mutable fields of the GameEngine class that the claims
depend on.  pending records an in-flight requestMove await (the turn it was
issued for); the source keeps no such tag beyond the suspended
executeBotMove continuation itself, and in particular pause and reset do
not clear it. -/
structure Engine where
  chessFen : String
  whiteWorker : Bool
  blackWorker : Bool
  state : GameState
  timeLimitMs : Nat
  stepping : Bool
  humanMovePending : Bool
  pending : Option Color
deriving DecidableEq, Repr

/-- One
onStateChange notification: the status and result passed to emit. -/
abbrev Emit := GameStatus × GameResult

/-- GameEngine.buildState: a fresh snapshot whose fen and currentTurn are
re-read from the chess instance and whose other fields carry over. -/
def Engine.buildState (o : RulesOracle) (e : Engine) (status : GameStatus)
    (result : GameResult) : GameState :=
  { status := status
    result := result
    fen := e.chessFen
    moves := e.state.moves
    currentTurn := (o.flags e.chessFen).turn
    whitePlayer := e.state.whitePlayer
    blackPlayer := e.state.blackPlayer
    lastMoveTimeMs := e.state.lastMoveTimeMs
    timeLimitMs := e.timeLimitMs }

/-- GameEngine.emit: replace the state snapshot and notify observers.  The
returned list is the emitted notification. -/
def Engine.emit (o : RulesOracle) (e : Engine) (status : GameStatus)
    (result : GameResult) : Engine × List Emit :=
  ({ e with state := e.buildState o status result }, [(status, result)])

/-- GameEngine.isHumanTurn. -/
def Engine.isHumanTurn (o : RulesOracle) (e : Engine) : Bool :=
  let player := match (o.flags e.chessFen).turn with
    | Color.w => e.state.whitePlayer
    | Color.b => e.state.blackPlayer
  match player with
  | some p => p.ptype == PlayerType.human
  | none => false

/-- The GameResult computed inside GameEngine.finishGame, in the source
order of checks: checkmate (winner opposite the side to move), stalemate,
threefold repetition, insufficient material, then isDraw reported as the
fifty-move draw. -/
def finishResult (o : RulesOracle) (fen : String) : GameResult :=
  let f := o.flags fen
  if f.isCheckmate then some (GameResultV.checkmate f.turn.other)
  else if f.isStalemate then some GameResultV.stalemate
  else if f.isThreefoldRepetition then some GameResultV.drawRepetition
  else if f.isInsufficientMaterial then some GameResultV.drawInsufficient
  else if o.isDraw fen then some GameResultV.draw50Move
  else none

/-- GameEngine.finishGame. -/
def Engine.finishGame (o : RulesOracle) (e : Engine) : Engine × List Emit :=
  e.emit o GameStatus.finished (finishResult o e.chessFen)

/-- GameEngine.submitHumanMove: validate and apply through the oracle; on
success append a MoveRecord with zero elapsed time, zero lastMoveTimeMs and
resolve the pending human-move promise (humanMovePending := false).  Note
the source performs no check that a human move is actually pending.  A
failing oracle call (falsy result or thrown error) returns false with
nothing mutated. -/
def Engine.submitHumanMove (o : RulesOracle) (e : Engine) (fro tto : String)
    (promotion : Option String) : Bool × Engine :=
  let uci := fro ++ tto ++ (match promotion with | some p => p | none => "")
  match o.move e.chessFen fro tto promotion with
  | none => (false, e)
  | some mo =>
    let mrec : MoveRecord :=
      { moveNumber := (e.state.moves.length + 1) / 2 + 1
        san := mo.san
        uci := uci
        fen := mo.nextFen
        color := mo.color
        timeMs := 0 }
    (true,
      { e with
        chessFen := mo.nextFen
        state := { e.state with
                   moves := e.state.moves ++ [mrec]
                   lastMoveTimeMs := 0 }
        humanMovePending := false })

/-- The reply a worker eventually posts for one requestMove message. -/
inductive WorkerReply where
  | result (uci : String)
  | error (msg : String)
deriving DecidableEq, Repr

/-- Environment script for one bot turn: how long the worker takes and what
it posts (none: it never replies). -/
structure BotResponse where
  latencyMs : Nat
  reply : Option WorkerReply
deriving DecidableEq, Repr

/-- JavaScript String.prototype.includes, over the character lists. -/
def charsStartWith : List Char → List Char → Bool
  | [], _ => true
  | _ :: _, [] => false
  | a :: as, c :: cs => a == c && charsStartWith as cs

def charsContain (sub : List Char) : List Char → Bool
  | [] => charsStartWith sub []
  | c :: cs => charsStartWith sub (c :: cs) || charsContain sub cs

def jsIncludes (s sub : String) : Bool :=
  charsContain sub.toList s.toList

/-- The rejection message built by the requestMove timeout handler. -/
def timeoutMessage (turn : Color) : String :=
  "timeout: " ++ (match turn with | Color.w => "White" | Color.b => "Black")
    ++ " bot exceeded time limit"

/-- GameEngine.requestMove, resolved against a scripted worker reply.  The
engine arms a timer at timeLimitMs + 1000 ms; a reply arriving later than
that (or never) loses the race and the promise rejects with the timeout
message; an in-time result resolves with the uci string and an in-time
error message rejects with it. -/
def requestMoveOutcome (timeLimitMs : Nat) (turn : Color) (resp : BotResponse) :
    Except String String :=
  match resp.reply with
  | none => Except.error (timeoutMessage turn)
  | some rep =>
    if resp.latencyMs > timeLimitMs + 1000 then Except.error (timeoutMessage turn)
    else match rep with
      | WorkerReply.result uci => Except.ok uci
      | WorkerReply.error m => Except.error m

/-- uci.substring(0,2), uci.substring(2,4), and uci[4] when present. -/
def uciFields (uci : String) : String × String × Option String :=
  let cs := uci.toList
  (String.mk (cs.take 2), String.mk ((cs.drop 2).take 2),
    if cs.length > 4 then some (String.mk ((cs.drop 4).take 1)) else none)

/-- The tail of GameEngine.executeBotMove after the awaited requestMove has
resolved with a uci string: parse, validate and apply via the oracle.  An
illegal or malformed move (falsy result or throw) finishes with a forfeit
for the mover; a legal move appends a MoveRecord with the measured elapsed
time, then either finishes with the oracle classification or emits the
status matching the new side to move (paused while stepping). -/
def Engine.applyUci (o : RulesOracle) (e : Engine) (turn : Color)
    (elapsed : Nat) (uci : String) : Engine × List Emit :=
  let fields := uciFields uci
  match o.move e.chessFen fields.1 fields.2.1 fields.2.2 with
  | none => e.emit o GameStatus.finished (some (GameResultV.forfeit turn ForfeitReason.invalid))
  | some mo =>
    let mrec : MoveRecord :=
      { moveNumber := (e.state.moves.length + 1) / 2 + 1
        san := mo.san
        uci := uci
        fen := mo.nextFen
        color := turn
        timeMs := elapsed }
    let e1 : Engine :=
      { e with
        chessFen := mo.nextFen
        state := { e.state with
                   moves := e.state.moves ++ [mrec]
                   lastMoveTimeMs := elapsed } }
    if o.isGameOver mo.nextFen then e1.finishGame o
    else if e1.stepping = false then
      if e1.isHumanTurn o then e1.emit o GameStatus.waitingHuman none
      else e1.emit o GameStatus.running none
    else e1.emit o GameStatus.paused none

/-- First half of GameEngine.executeBotMove: emit running and send the
requestMove message; the suspended continuation is recorded in pending. -/
def Engine.beginBotRequest (o : RulesOracle) (e : Engine) (turn : Color) :
    Engine × List Emit :=
  let r := e.emit o GameStatus.running none
  ({ r.1 with pending := some turn }, r.2)

/-- Second half of GameEngine.executeBotMove: the awaited requestMove
settled.  A rejection whose message contains the word timeout finishes with
a timeout forfeit, any other rejection with an invalid forfeit; a
resolution applies the returned move.  The await can only settle once, so
pending is consumed. -/
def Engine.resolveBotRequest (o : RulesOracle) (e : Engine) (turn : Color)
    (outcome : Except String String) (elapsed : Nat) : Engine × List Emit :=
  let e0 : Engine := { e with pending := none }
  match outcome with
  | Except.error msg =>
    if jsIncludes msg "timeout" then
      e0.emit o GameStatus.finished (some (GameResultV.forfeit turn ForfeitReason.timeout))
    else
      e0.emit o GameStatus.finished (some (GameResultV.forfeit turn ForfeitReason.invalid))
  | Except.ok uci => e0.applyUci o turn elapsed uci

def Engine.workerFor (e : Engine) : Color → Bool
  | Color.w => e.whiteWorker
  | Color.b => e.blackWorker

/-- GameEngine.executeBotMove run to completion against one scripted worker
response (the undisturbed, no pause or reset in between, execution). -/
def Engine.executeBotMove (o : RulesOracle) (e : Engine) (turn : Color)
    (resp : BotResponse) : Engine × List Emit :=
  if e.workerFor turn = false then
    e.emit o GameStatus.finished (some (GameResultV.forfeit turn ForfeitReason.invalid))
  else
    let r1 := e.beginBotRequest o turn
    let r2 := r1.1.resolveBotRequest o turn
      (requestMoveOutcome r1.1.timeLimitMs turn resp) resp.latencyMs
    (r2.1, r1.2 ++ r2.2)

/-- GameEngine.executeHumanMove against one scripted submission: emit
waiting-human, wait for submitHumanMove.  A rejected submission leaves the
promise pending (the engine keeps waiting); a successful one resumes the
continuation, which checks for game over and otherwise emits the status for
the new side to move. -/
def Engine.executeHumanMove (o : RulesOracle) (e : Engine) (fro tto : String)
    (promotion : Option String) : Engine × List Emit :=
  let r1 := e.emit o GameStatus.waitingHuman none
  let e1 : Engine := { r1.1 with humanMovePending := true }
  let s := e1.submitHumanMove o fro tto promotion
  if s.1 = false then (s.2, r1.2)
  else
    let e2 := s.2
    let r3 :=
      if o.isGameOver e2.chessFen then e2.finishGame o
      else if e2.stepping = false then
        if e2.isHumanTurn o then e2.emit o GameStatus.waitingHuman none
        else e2.emit o GameStatus.running none
      else e2.emit o GameStatus.paused none
    (r3.1, r1.2 ++ r3.2)

/-- The external input feeding one iteration of the move loop: a worker
response for a bot turn, or a human submission. -/
inductive TurnInput where
  | bot (resp : BotResponse)
  | human (fro tto : String) (promotion : Option String)
deriving DecidableEq, Repr

/-- GameEngine.executeSingleMove.  A scripted input of the wrong kind
stands for an environment that never produces the awaited event: a bot turn
without a worker response times out, a human turn without a submission
stays waiting. -/
def Engine.executeSingleMove (o : RulesOracle) (e : Engine) (inp : TurnInput) :
    Engine × List Emit :=
  let turn := (o.flags e.chessFen).turn
  let player := match turn with
    | Color.w => e.state.whitePlayer
    | Color.b => e.state.blackPlayer
  match player with
  | none => e.emit o GameStatus.finished (some (GameResultV.forfeit turn ForfeitReason.invalid))
  | some p =>
    if p.ptype = PlayerType.human then
      match inp with
      | TurnInput.human fro tto promotion => e.executeHumanMove o fro tto promotion
      | TurnInput.bot _ =>
        let r1 := e.emit o GameStatus.waitingHuman none
        ({ r1.1 with humanMovePending := true }, r1.2)
    else
      match inp with
      | TurnInput.bot resp => e.executeBotMove o turn resp
      | TurnInput.human _ _ _ => e.executeBotMove o turn { latencyMs := 0, reply := none }

/-- GameEngine.gameLoop, driven by the script of external inputs, for runs
not interrupted by pause or reset (the abort signal never fires; the
cancelable inter-move delay emits nothing and is dropped).  While the
position is not terminal, execute one move and stop as soon as a move
finished the game; once the position is terminal, finish with the oracle
classification.  An exhausted script stands for an environment that stops
answering: the loop is still blocked inside its next iteration. -/
def Engine.gameLoop (o : RulesOracle) : Engine → List TurnInput → Engine × List Emit
  | e, [] => if o.isGameOver e.chessFen then e.finishGame o else (e, [])
  | e, inp :: rest =>
    if o.isGameOver e.chessFen then e.finishGame o
    else
      let r1 := e.executeSingleMove o inp
      if r1.1.state.status = GameStatus.finished then r1
      else
        let r2 := Engine.gameLoop o r1.1 rest
        (r2.1, r1.2 ++ r2.2)

/-- GameEngine.pause: only from running or waiting-human; abort the
controller (which stops future loop iterations but does not detach the
in-flight requestMove listeners: pending survives), drop any pending
human-move resolver, and emit paused. -/
def Engine.pause (o : RulesOracle) (e : Engine) : Engine × List Emit :=
  if e.state.status ≠ GameStatus.running ∧ e.state.status ≠ GameStatus.waitingHuman then
    (e, [])
  else
    let e1 : Engine := { e with humanMovePending := false }
    e1.emit o GameStatus.paused none

/-- GameEngine.reset: abort, drop the human-move resolver, replace the
chess instance with a fresh board and the state with a cleared snapshot,
then emit idle.  Workers are not terminated and the in-flight requestMove
continuation (pending) is not invalidated. -/
def Engine.reset (o : RulesOracle) (e : Engine) : Engine × List Emit :=
  let e1 : Engine :=
    { e with
      humanMovePending := false
      chessFen := INITIAL_FEN
      state := { e.state with
                 status := GameStatus.idle
                 result := none
                 fen := INITIAL_FEN
                 moves := []
                 currentTurn := Color.w
                 lastMoveTimeMs := 0 } }
  e1.emit o GameStatus.idle none

/-- A worker result message arriving after pause or reset: the requestMove
promise (whose listeners were never detached) resolves and the suspended
executeBotMove continuation resumes against the current chess instance and
state. -/
def Engine.deliverLateResponse (o : RulesOracle) (e : Engine) (elapsed : Nat)
    (uci : String) : Engine × List Emit :=
  match e.pending with
  | none => (e, [])
  | some turn => e.resolveBotRequest o turn (Except.ok uci) elapsed

/-! ## Match Controller (playBotMatch in App.tsx) and head-to-head tracking -/

/-- App.getWinnerColor: winner color of a finished game result; draws and
null yield none, a forfeit is won by the other side. -/
def getWinnerColor : GameResult → Option Color
  | none => none
  | some (GameResultV.checkmate winner) => some winner
  | some (GameResultV.forfeit loser _) => some loser.other
  | some _ => none

/-- App.getGameWinReason. -/
def getGameWinReason : GameResult → GameWinReason
  | none => GameWinReason.draw50Move
  | some (GameResultV.checkmate _) => GameWinReason.checkmate
  | some GameResultV.stalemate => GameWinReason.stalemate
  | some GameResultV.drawRepetition => GameWinReason.drawRepetition
  | some GameResultV.drawInsufficient => GameWinReason.drawInsufficient
  | some GameResultV.draw50Move => GameWinReason.draw50Move
  | some (GameResultV.forfeit _ reason) =>
    match reason with
    | ForfeitReason.timeout => GameWinReason.timeout
    | ForfeitReason.invalid => GameWinReason.invalidMove

/-- The bot seeded with the given color for games 1 and 2. -/
def colorBot (wB bB : BotInfo) : Color → BotInfo
  | Color.w => wB
  | Color.b => bB

/-- What playBotMatch returns, extended with the observable sequence of
games that were actually played (the color assignment of each engine
invocation), which the source performs through loadPlayers/play. -/
structure MatchOutcome where
  winner : BotInfo
  loser : BotInfo
  gameResults : List MatchResult
  played : List (BotInfo × BotInfo)
deriving DecidableEq, Repr

/-- The while loop of playBotMatch.  Arguments mirror the local variables:
game number, series wins of the white-seeded and black-seeded bot, game-2
winner and loser (null until game 2 is decisive), accumulated gameResults,
games played so far, and the stream of finished-game results produced by
the engine (exhausting it models the engine failing to finish a game, which
the source surfaces as a thrown error, as does the unreachable fallback
after game 3). -/
def playBotMatchAux (wB bB : BotInfo) :
    Nat → Nat → Nat → Option BotInfo → Option BotInfo → List MatchResult →
    List (BotInfo × BotInfo) → List GameResult → Option MatchOutcome
  | _, _, _, _, _, _, _, [] => none
  | gameNumber, wWins, bWins, g2W, g2L, acc, played, out :: rest =>
    if gameNumber > 3 then none
    else
      let cwcb : BotInfo × BotInfo :=
        if gameNumber ≤ 2 then (wB, bB)
        else if g2W = some wB then (bB, wB) else (wB, bB)
      let played1 := played ++ [cwcb]
      let winnerColor := getWinnerColor out
      let reason := getGameWinReason out
      if gameNumber = 1 then
        match winnerColor with
        | some Color.w =>
          let acc1 := acc ++ [⟨wB, bB, reason⟩]
          if wWins + 1 = 2 then some ⟨wB, bB, acc1, played1⟩
          else playBotMatchAux wB bB (gameNumber + 1) (wWins + 1) bWins g2W g2L acc1 played1 rest
        | some Color.b =>
          let acc1 := acc ++ [⟨bB, wB, reason⟩]
          if bWins + 1 = 2 then some ⟨bB, wB, acc1, played1⟩
          else playBotMatchAux wB bB (gameNumber + 1) wWins (bWins + 1) g2W g2L acc1 played1 rest
        | none => playBotMatchAux wB bB (gameNumber + 1) wWins bWins g2W g2L acc played1 rest
      else if gameNumber = 2 then
        match winnerColor with
        | some Color.w =>
          let acc1 := acc ++ [⟨wB, bB, reason⟩]
          if wWins + 1 = 2 then some ⟨wB, bB, acc1, played1⟩
          else playBotMatchAux wB bB (gameNumber + 1) (wWins + 1) bWins (some wB) (some bB) acc1 played1 rest
        | some Color.b =>
          let acc1 := acc ++ [⟨bB, wB, reason⟩]
          if bWins + 1 = 2 then some ⟨bB, wB, acc1, played1⟩
          else playBotMatchAux wB bB (gameNumber + 1) wWins (bWins + 1) (some bB) (some wB) acc1 played1 rest
        | none => playBotMatchAux wB bB (gameNumber + 1) wWins bWins g2W g2L acc played1 rest
      else
        match winnerColor with
        | some Color.w => some ⟨cwcb.1, cwcb.2, acc ++ [⟨cwcb.1, cwcb.2, reason⟩], played1⟩
        | some Color.b => some ⟨cwcb.2, cwcb.1, acc ++ [⟨cwcb.2, cwcb.1, reason⟩], played1⟩
        | none =>
          let gw := g2W.getD wB
          let gl := g2L.getD bB
          let acc1 := acc ++ [⟨gw, gl, reason⟩]
          if g2W = some wB then some ⟨wB, bB, acc1, played1⟩
          else some ⟨bB, wB, acc1, played1⟩

/-- App.playBotMatch (best-of-3), driven by the stream of finished-game
results the engine produces for the successive games. -/
def playBotMatch (wB bB : BotInfo) (outs : List GameResult) : Option MatchOutcome :=
  playBotMatchAux wB bB 1 0 0 none none [] [] outs

/-- The game-2 winner variable as a function of game 2's result. -/
def g2WinnerOf (wB bB : BotInfo) (r2 : GameResult) : Option BotInfo :=
  match getWinnerColor r2 with
  | some Color.w => some wB
  | some Color.b => some bB
  | none => none

structure H2HEntry where
  wins : Nat
  losses : Nat
deriving DecidableEq, Repr

/-- Lookup in the headToHead record (a JS object keyed by strings). -/
def getEntry : List (String × H2HEntry) → String → Option H2HEntry
  | [], _ => none
  | (k, v) :: t, key => if k = key then some v else getEntry t key

/-- Property write on the headToHead record. -/
def setEntry : List (String × H2HEntry) → String → H2HEntry → List (String × H2HEntry)
  | [], key, v => [(key, v)]
  | (k, w) :: t, key, v => if k = key then (key, v) :: t else (k, w) :: setEntry t key v

/-- JavaScript default string comparison (lexicographic by code units;
identical to code-point order on the BMP usernames involved), over the
character lists. -/
def charListLt : List Char → List Char → Bool
  | [], [] => false
  | [], _ :: _ => true
  | _ :: _, [] => false
  | a :: as, b :: bs =>
    if a.toNat < b.toNat then true
    else if b.toNat < a.toNat then false
    else charListLt as bs

def strLt (a b : String) : Bool := charListLt a.toList b.toList

/-- The pair [a, b].sort() of JavaScript (stable two-element sort by the
string order). -/
def sortedPair (a b : String) : String × String :=
  if strLt b a then (b, a) else (a, b)

/-- The headToHead key: sorted usernames joined by -vs-. -/
def h2hKey (a b : String) : String :=
  let p := sortedPair a b
  p.1 ++ "-vs-" ++ p.2

/-- trackHeadToHead from handleStartTournament: one increment per call on
the entry of the unordered pair, counting wins for the alphabetically first
username and losses otherwise.  handleStartTournament invokes it exactly
once per completed playBotMatch (and once for the third-place match), not
once per game. -/
def trackHeadToHead (h2h : List (String × H2HEntry)) (winner loser : BotInfo) :
    List (String × H2HEntry) :=
  let p := sortedPair winner.username loser.username
  let key := p.1 ++ "-vs-" ++ p.2
  let cur := (getEntry h2h key).getD ⟨0, 0⟩
  let cur1 := if winner.username = p.1 then { cur with wins := cur.wins + 1 }
              else { cur with losses := cur.losses + 1 }
  setEntry h2h key cur1

/-- The head-to-head map accumulated over a tournament: one
trackHeadToHead call per completed match, in order, starting from the empty
record. -/
def accumulateH2H (ms : List (BotInfo × BotInfo)) : List (String × H2HEntry) :=
  ms.foldl (fun m wl => trackHeadToHead m wl.1 wl.2) []

/-- wins + losses of the stored entry under a key (0 when absent). -/
def entrySum (h2h : List (String × H2HEntry)) (key : String) : Nat :=
  match getEntry h2h key with
  | none => 0
  | some en => en.wins + en.losses

/-! ## Concrete fixtures used by witnesses and counterexamples -/

def botA : BotInfo := { username := "alice", avatar := "", forkUrl := "" }

def botB : BotInfo := { username := "bob", avatar := "", forkUrl := "" }

/-- An oracle for a position with no legal moves scripted and no terminal
flags (every move attempt fails). -/
def oTriv : RulesOracle :=
  { flags := fun _ =>
      { isCheckmate := false, isStalemate := false, isThreefoldRepetition := false
        isInsufficientMaterial := false, fiftyMoves := false, turn := Color.w }
    move := fun _ _ _ _ => none }

def fenAfterE4 : String := "rnbqkbnr/pppppppp/8/8/4P3/8/PPPP1PPP/RNBQKBNR b KQkq e3 0 1"

/-- An oracle scripting exactly one legal move, e2e4 from the initial
position, to a non-terminal position with black to move. -/
def oLegal : RulesOracle :=
  { flags := fun fen =>
      if fen = INITIAL_FEN then
        { isCheckmate := false, isStalemate := false, isThreefoldRepetition := false
          isInsufficientMaterial := false, fiftyMoves := false, turn := Color.w }
      else
        { isCheckmate := false, isStalemate := false, isThreefoldRepetition := false
          isInsufficientMaterial := false, fiftyMoves := false, turn := Color.b }
    move := fun fen fro tto promotion =>
      if fen = INITIAL_FEN ∧ fro = "e2" ∧ tto = "e4" ∧ promotion = none then
        some { san := "e4", color := Color.w, nextFen := fenAfterE4 }
      else none }

/-- A bot-vs-bot engine at the initial position, loop running. -/
def engW : Engine :=
  { chessFen := INITIAL_FEN
    whiteWorker := true
    blackWorker := true
    state :=
      { status := GameStatus.running
        result := none
        fen := INITIAL_FEN
        moves := []
        currentTurn := Color.w
        whitePlayer := some { ptype := PlayerType.bot, bot := some botA }
        blackPlayer := some { ptype := PlayerType.bot, bot := some botB }
        lastMoveTimeMs := 0
        timeLimitMs := 10000 }
    timeLimitMs := 10000
    stepping := false
    humanMovePending := false
    pending := none }

/-- The same engine paused with no pending human-move wait. -/
def engPaused : Engine :=
  { engW with state := { engW.state with status := GameStatus.paused } }

/-- A human-vs-bot engine waiting for a human submission. -/
def engWaiting : Engine :=
  { engW with
    state := { engW.state with
               status := GameStatus.waitingHuman
               whitePlayer := some { ptype := PlayerType.human, bot := none } }
    humanMovePending := true }

/-! ## Supporting lemmas -/

theorem jsIncludes_timeoutMessage (turn : Color) :
    jsIncludes (timeoutMessage turn) "timeout" = true := by
  cases turn <;> decide

/-! ## Claim theorems -/

/-- C2: whenever the worker reply for a bot turn arrives later than
timeLimitMs + 1000 ms (or never), executeBotMove finishes the game with a
timeout forfeit against the side to move, appends no MoveRecord, and
returns normally (the model is a total function; the source swallows the
rejection inside executeBotMove and surfaces nothing). -/
theorem executeBotMove_timeout_forfeits (o : RulesOracle) (e : Engine) (turn : Color)
    (resp : BotResponse) (hw : e.workerFor turn = true)
    (hl : resp.latencyMs > e.timeLimitMs + 1000) :
    (e.executeBotMove o turn resp).1.state.status = GameStatus.finished ∧
    (e.executeBotMove o turn resp).1.state.result =
      some (GameResultV.forfeit turn ForfeitReason.timeout) ∧
    (e.executeBotMove o turn resp).1.state.moves = e.state.moves ∧
    (e.executeBotMove o turn resp).2 =
      [(GameStatus.running, none),
       (GameStatus.finished, some (GameResultV.forfeit turn ForfeitReason.timeout))] := by
  have hmsg := jsIncludes_timeoutMessage turn
  have hout : requestMoveOutcome e.timeLimitMs turn resp =
      Except.error (timeoutMessage turn) := by
    cases hr : resp.reply with
    | none => simp [requestMoveOutcome, hr]
    | some rep => simp [requestMoveOutcome, hr, hl]
  simp [Engine.executeBotMove, Engine.beginBotRequest, Engine.resolveBotRequest,
    Engine.emit, Engine.buildState, hw, hout, hmsg]

theorem executeBotMove_timeout_forfeits_witness :
    (engW.executeBotMove oTriv Color.w
        { latencyMs := 20000, reply := some (WorkerReply.result "e2e4") }).1.state.status =
      GameStatus.finished ∧
    (engW.executeBotMove oTriv Color.w
        { latencyMs := 20000, reply := some (WorkerReply.result "e2e4") }).1.state.result =
      some (GameResultV.forfeit Color.w ForfeitReason.timeout) ∧
    (engW.executeBotMove oTriv Color.w
        { latencyMs := 20000, reply := some (WorkerReply.result "e2e4") }).1.state.moves =
      engW.state.moves ∧
    (engW.executeBotMove oTriv Color.w
        { latencyMs := 20000, reply := some (WorkerReply.result "e2e4") }).2 =
      [(GameStatus.running, none),
       (GameStatus.finished, some (GameResultV.forfeit Color.w ForfeitReason.timeout))] :=
  executeBotMove_timeout_forfeits oTriv engW Color.w
    { latencyMs := 20000, reply := some (WorkerReply.result "e2e4") }
    (by decide) (by decide)

/-- C4: a submitHumanMove call whose move the oracle rejects returns false
and leaves the engine, in particular every field of its GameState,
unchanged (and, being a total function of the model, raises nothing). -/
theorem submitHumanMove_illegal_unchanged (o : RulesOracle) (e : Engine)
    (fro tto : String) (promotion : Option String)
    (h : o.move e.chessFen fro tto promotion = none) :
    e.submitHumanMove o fro tto promotion = (false, e) := by
  simp [Engine.submitHumanMove, h]

theorem submitHumanMove_illegal_unchanged_witness :
    engW.submitHumanMove oTriv "e2" "e5" none = (false, engW) :=
  submitHumanMove_illegal_unchanged oTriv engW "e2" "e5" none rfl

/-- C5 counterexample: submitHumanMove checks neither the status nor the
presence of a pending human-move wait.  On a paused engine with no pending
wait, a legal move is accepted (returns true) and the move history is
mutated. -/
theorem submitHumanMove_no_guard_cex :
    engPaused.state.status = GameStatus.paused ∧
    engPaused.humanMovePending = false ∧
    (engPaused.submitHumanMove oLegal "e2" "e4" none).1 = true ∧
    (engPaused.submitHumanMove oLegal "e2" "e4" none).2.state.moves ≠
      engPaused.state.moves := by
  refine ⟨rfl, rfl, by decide, by decide⟩

/-- C5 as amended: submitHumanMove validates through the oracle with no
pending-wait guard; whenever a human move is pending and the move is legal
it returns true, appends a MoveRecord with zero elapsed time and resolves
the pending wait (the same happens without a pending wait). -/
theorem submitHumanMove_pending_legal_appends (o : RulesOracle) (e : Engine)
    (fro tto : String) (promotion : Option String) (mo : ChessMoveOut)
    (hp : e.humanMovePending = true)
    (h : o.move e.chessFen fro tto promotion = some mo) :
    (e.submitHumanMove o fro tto promotion).1 = true ∧
    (e.submitHumanMove o fro tto promotion).2.humanMovePending = false ∧
    (e.submitHumanMove o fro tto promotion).2.state.moves =
      e.state.moves ++
        [{ moveNumber := (e.state.moves.length + 1) / 2 + 1
           san := mo.san
           uci := fro ++ tto ++ (match promotion with | some p => p | none => "")
           fen := mo.nextFen
           color := mo.color
           timeMs := 0 }] ∧
    (e.submitHumanMove o fro tto promotion).2.state.lastMoveTimeMs = 0 := by
  cases promotion <;> simp [Engine.submitHumanMove, h]

theorem submitHumanMove_pending_legal_appends_witness :
    (engWaiting.submitHumanMove oLegal "e2" "e4" none).1 = true ∧
    (engWaiting.submitHumanMove oLegal "e2" "e4" none).2.humanMovePending = false ∧
    (engWaiting.submitHumanMove oLegal "e2" "e4" none).2.state.moves =
      engWaiting.state.moves ++
        [{ moveNumber := (engWaiting.state.moves.length + 1) / 2 + 1
           san := "e4"
           uci := "e2" ++ "e4" ++ ""
           fen := fenAfterE4
           color := Color.w
           timeMs := 0 }] ∧
    (engWaiting.submitHumanMove oLegal "e2" "e4" none).2.state.lastMoveTimeMs = 0 :=
  submitHumanMove_pending_legal_appends oLegal engWaiting "e2" "e4" none
    { san := "e4", color := Color.w, nextFen := fenAfterE4 } rfl (by decide)

/-- C6: when the same color wins games 1 and 2, that side has 2 series
wins and playBotMatch returns right after game 2: the winner is the bot
seeded with that color, exactly two games were played and game 3 never
happens. -/
theorem sweep_ends_after_two_games (wB bB : BotInfo) (c : Color)
    (r1 r2 : GameResult) (rest : List GameResult)
    (h1 : getWinnerColor r1 = some c) (h2 : getWinnerColor r2 = some c) :
    playBotMatch wB bB (r1 :: r2 :: rest) =
      some ⟨colorBot wB bB c, colorBot wB bB c.other,
            [⟨colorBot wB bB c, colorBot wB bB c.other, getGameWinReason r1⟩,
             ⟨colorBot wB bB c, colorBot wB bB c.other, getGameWinReason r2⟩],
            [(wB, bB), (wB, bB)]⟩ := by
  cases c <;>
    simp [playBotMatch, playBotMatchAux, h1, h2, colorBot, Color.other]

theorem sweep_ends_after_two_games_witness :
    playBotMatch botA botB
        [some (GameResultV.checkmate Color.w), some (GameResultV.checkmate Color.w)] =
      some ⟨colorBot botA botB Color.w, colorBot botA botB Color.w.other,
            [⟨colorBot botA botB Color.w, colorBot botA botB Color.w.other,
              getGameWinReason (some (GameResultV.checkmate Color.w))⟩,
             ⟨colorBot botA botB Color.w, colorBot botA botB Color.w.other,
              getGameWinReason (some (GameResultV.checkmate Color.w))⟩],
            [(botA, botB), (botA, botB)]⟩ :=
  sweep_ends_after_two_games botA botB Color.w
    (some (GameResultV.checkmate Color.w)) (some (GameResultV.checkmate Color.w)) []
    rfl rfl

/-- C10: when games 1, 2 and 3 all end without a winner color, playBotMatch
plays exactly three games (without swapping colors for game 3, since the
null game-2 winner is not the white seed), records the white-seeded bot as
the winner of game 3 in gameResults, yet returns the black-seeded bot as
the match winner: the returned winner differs from the recorded one. -/
theorem allDraws_returns_black_seed (wB bB : BotInfo) (hne : wB ≠ bB)
    (r1 r2 r3 : GameResult) (rest : List GameResult)
    (h1 : getWinnerColor r1 = none) (h2 : getWinnerColor r2 = none)
    (h3 : getWinnerColor r3 = none) :
    playBotMatch wB bB (r1 :: r2 :: r3 :: rest) =
      some ⟨bB, wB, [⟨wB, bB, getGameWinReason r3⟩], [(wB, bB), (wB, bB), (wB, bB)]⟩ ∧
    bB ≠ wB := by
  refine ⟨?_, fun hEq => hne hEq.symm⟩
  simp [playBotMatch, playBotMatchAux, h1, h2, h3]

theorem allDraws_returns_black_seed_witness :
    (botA ≠ botB) ∧
    (playBotMatch botA botB [none, none, none] =
      some ⟨botB, botA, [⟨botA, botB, getGameWinReason none⟩],
            [(botA, botB), (botA, botB), (botA, botB)]⟩ ∧
     botB ≠ botA) :=
  ⟨by decide, allDraws_returns_black_seed botA botB (by decide) none none none [] rfl rfl rfl⟩

/-- Projection helpers on an optional match outcome. -/
def playedOf : Option MatchOutcome → List (BotInfo × BotInfo)
  | none => []
  | some mo => mo.played

def winnerOf : Option MatchOutcome → Option BotInfo
  | none => none
  | some mo => some mo.winner

/-- C1: the failing race, evaluated.  A white-bot move request is in
flight (beginBotRequest), then pause() and reset() run; the worker result
arriving afterwards still resumes the suspended executeBotMove
continuation, which applies the move to the freshly reset board and
appends a MoveRecord to the cleared history.  After pause and reset the
history is empty and the stale request is still pending; delivering the
late response leaves a MoveRecord in the history for a turn whose request
had not resolved at cancellation time, contradicting the claim. -/
theorem pause_reset_late_response_mutates_history :
    ((engW.beginBotRequest oLegal Color.w).1.pending = some Color.w) ∧
    (((((engW.beginBotRequest oLegal Color.w).1.pause oLegal).1.reset oLegal).1.state.moves
        = []) ∧
     ((((engW.beginBotRequest oLegal Color.w).1.pause oLegal).1.reset oLegal).1.pending
        = some Color.w) ∧
     (((((engW.beginBotRequest oLegal Color.w).1.pause oLegal).1.reset
          oLegal).1.deliverLateResponse oLegal 120 "e2e4").1.state.moves =
        [{ moveNumber := 1, san := "e4", uci := "e2e4", fen := fenAfterE4,
           color := Color.w, timeMs := 120 }]) ∧
     (((((engW.beginBotRequest oLegal Color.w).1.pause oLegal).1.reset
          oLegal).1.deliverLateResponse oLegal 120 "e2e4").1.state.moves ≠ [])) := by
  refine ⟨by decide, by decide, by decide, by decide, by decide⟩

/-- C7 counterexample: game 1 drawn, game 2 won by white.  Games 1 and 2
did not end in a 1 to 1 split (the score is 1 to 0 with a draw), yet a
third game is played, with swapped colors because the game-2 winner was
the white seed. -/
theorem game3_without_split_cex :
    playBotMatch botA botB
        [some GameResultV.stalemate, some (GameResultV.checkmate Color.w),
         some GameResultV.stalemate] =
      some ⟨botA, botB,
            [⟨botA, botB, GameWinReason.checkmate⟩, ⟨botA, botB, GameWinReason.stalemate⟩],
            [(botA, botB), (botA, botB), (botB, botA)]⟩ ∧
    getWinnerColor (some GameResultV.stalemate) = none := by
  refine ⟨by decide, rfl⟩

/-- Game 3 of the while loop always resolves the match, with the color
assignment swapped exactly when the game-2 winner is the white seed. -/
theorem playBotMatchAux_game3 (wB bB : BotInfo) (wWins bWins : Nat)
    (g2W g2L : Option BotInfo) (acc : List MatchResult)
    (played : List (BotInfo × BotInfo)) (out : GameResult) (rest : List GameResult) :
    (playBotMatchAux wB bB 3 wWins bWins g2W g2L acc played (out :: rest)).isSome = true ∧
    playedOf (playBotMatchAux wB bB 3 wWins bWins g2W g2L acc played (out :: rest)) =
      played ++ [if g2W = some wB then (bB, wB) else (wB, bB)] := by
  cases hc : getWinnerColor out with
  | none =>
    by_cases hg : g2W = some wB <;> simp [playBotMatchAux, hc, hg, playedOf]
  | some c =>
    cases c <;> by_cases hg : g2W = some wB <;>
      simp [playBotMatchAux, hc, hg, playedOf]

/-- C7 as amended: with three or more game results available, the match
always resolves; game 3 is played exactly when no side won both games 1
and 2 (so also after draw-containing 1-0 or 0-0 scores, not only after a
1 to 1 split); and whenever game 3 is played and game 2 had a decisive
winner, game 3 is hosted with the game-2 loser as white and the game-2
winner as black. -/
theorem game3_iff_no_sweep (wB bB : BotInfo) (hne : wB ≠ bB)
    (r1 r2 r3 : GameResult) (rest : List GameResult) :
    (playBotMatch wB bB (r1 :: r2 :: r3 :: rest)).isSome = true ∧
    ((playedOf (playBotMatch wB bB (r1 :: r2 :: r3 :: rest))).length = 3 ↔
      ¬ (getWinnerColor r1 = getWinnerColor r2 ∧ (getWinnerColor r1).isSome = true)) ∧
    (∀ c : Color, getWinnerColor r2 = some c →
      (playedOf (playBotMatch wB bB (r1 :: r2 :: r3 :: rest))).length = 3 →
      (playedOf (playBotMatch wB bB (r1 :: r2 :: r3 :: rest))).getLast? =
        some (colorBot wB bB c.other, colorBot wB bB c)) := by
  have hne2 : bB ≠ wB := Ne.symm hne
  cases hc1 : getWinnerColor r1 with
  | none =>
    cases hc2 : getWinnerColor r2 with
    | none =>
      have h3 := playBotMatchAux_game3 wB bB 0 0 none none []
        [(wB, bB), (wB, bB)] r3 rest
      simp [playBotMatch, playBotMatchAux, hc1, hc2] at h3 ⊢
      simp [h3.1, h3.2]
    | some c2 =>
      cases c2 <;>
      · have h3 := playBotMatchAux_game3 wB bB 0 1
          (some (colorBot wB bB ((getWinnerColor r2).getD Color.w)))
          (some (colorBot wB bB (((getWinnerColor r2).getD Color.w).other)))
          [⟨colorBot wB bB ((getWinnerColor r2).getD Color.w),
            colorBot wB bB (((getWinnerColor r2).getD Color.w).other),
            getGameWinReason r2⟩]
          [(wB, bB), (wB, bB)] r3 rest
        simp [playBotMatch, playBotMatchAux, hc1, hc2, colorBot, Color.other,
          hne2] at h3 ⊢
        try simp [h3.1, h3.2, hne2]
  | some c1 =>
    cases hc2 : getWinnerColor r2 with
    | none =>
      cases c1 <;>
      · have h3 := playBotMatchAux_game3 wB bB 1 0 none none
          [⟨colorBot wB bB ((getWinnerColor r1).getD Color.w),
            colorBot wB bB (((getWinnerColor r1).getD Color.w).other),
            getGameWinReason r1⟩]
          [(wB, bB), (wB, bB)] r3 rest
        simp [playBotMatch, playBotMatchAux, hc1, hc2, colorBot, Color.other] at h3 ⊢
        try simp [h3.1, h3.2]
    | some c2 =>
      cases c1 <;> cases c2 <;>
        simp [playBotMatch, playBotMatchAux, hc1, hc2, colorBot, Color.other, hne2,
          playedOf]
      case w.b =>
        have h3 := playBotMatchAux_game3 wB bB 1 1 (some bB) (some wB)
          [⟨wB, bB, getGameWinReason r1⟩, ⟨bB, wB, getGameWinReason r2⟩]
          [(wB, bB), (wB, bB)] r3 rest
        simp [playBotMatchAux, hne2, playedOf] at h3 ⊢
        simp [h3.1, h3.2]
      case b.w =>
        have h3 := playBotMatchAux_game3 wB bB 1 1 (some wB) (some bB)
          [⟨bB, wB, getGameWinReason r1⟩, ⟨wB, bB, getGameWinReason r2⟩]
          [(wB, bB), (wB, bB)] r3 rest
        simp [playBotMatchAux, playedOf] at h3 ⊢
        simp [h3.1, h3.2]

theorem game3_iff_no_sweep_witness :
    (playBotMatch botA botB
        [some GameResultV.stalemate, some (GameResultV.checkmate Color.b), none,
         none]).isSome = true ∧
    ((playedOf (playBotMatch botA botB
        [some GameResultV.stalemate, some (GameResultV.checkmate Color.b), none,
         none])).length = 3 ↔
      ¬ (getWinnerColor (some GameResultV.stalemate) =
           getWinnerColor (some (GameResultV.checkmate Color.b)) ∧
         (getWinnerColor (some GameResultV.stalemate)).isSome = true)) ∧
    (∀ c : Color, getWinnerColor (some (GameResultV.checkmate Color.b)) = some c →
      (playedOf (playBotMatch botA botB
          [some GameResultV.stalemate, some (GameResultV.checkmate Color.b), none,
           none])).length = 3 →
      (playedOf (playBotMatch botA botB
          [some GameResultV.stalemate, some (GameResultV.checkmate Color.b), none,
           none])).getLast? =
        some (colorBot botA botB c.other, colorBot botA botB c)) :=
  game3_iff_no_sweep botA botB (by decide) (some GameResultV.stalemate)
    (some (GameResultV.checkmate Color.b)) none [none]

/-- C8: if game 2 had a decisive winner, game 1 was not won by that same
color (so the series is still open and game 3 is actually played), and
game 3 ends with no winner color, the match winner returned by
playBotMatch is the winner of game 2. -/
theorem drawn_game3_winner_is_game2_winner (wB bB : BotInfo) (hne : wB ≠ bB)
    (r1 r2 r3 : GameResult) (rest : List GameResult) (c : Color)
    (h1 : getWinnerColor r1 ≠ some c) (h2 : getWinnerColor r2 = some c)
    (h3 : getWinnerColor r3 = none) :
    winnerOf (playBotMatch wB bB (r1 :: r2 :: r3 :: rest)) =
      some (colorBot wB bB c) := by
  have hne2 : bB ≠ wB := Ne.symm hne
  cases c with
  | w =>
    cases hc1 : getWinnerColor r1 with
    | none =>
      simp [playBotMatch, playBotMatchAux, hc1, h2, h3, colorBot, hne2, winnerOf]
    | some c1 =>
      cases c1 with
      | w => exact absurd hc1 h1
      | b =>
        simp [playBotMatch, playBotMatchAux, hc1, h2, h3, colorBot, hne2, winnerOf]
  | b =>
    cases hc1 : getWinnerColor r1 with
    | none =>
      simp [playBotMatch, playBotMatchAux, hc1, h2, h3, colorBot, hne2, winnerOf]
    | some c1 =>
      cases c1 with
      | w =>
        simp [playBotMatch, playBotMatchAux, hc1, h2, h3, colorBot, hne2, winnerOf]
      | b => exact absurd hc1 h1

theorem drawn_game3_winner_is_game2_winner_witness :
    winnerOf (playBotMatch botA botB
        [some GameResultV.stalemate, some (GameResultV.checkmate Color.b), none]) =
      some (colorBot botA botB Color.b) :=
  drawn_game3_winner_is_game2_winner botA botB (by decide)
    (some GameResultV.stalemate) (some (GameResultV.checkmate Color.b)) none []
    Color.b (by decide) rfl rfl

/-! ## Head-to-head lemmas -/

theorem charListLt_asymm : ∀ as bs, charListLt as bs = true →
    charListLt bs as = false := by
  intro as
  induction as with
  | nil =>
    intro bs h
    cases bs with
    | nil => simp [charListLt] at h
    | cons b bt => simp [charListLt]
  | cons a at' ih =>
    intro bs h
    cases bs with
    | nil => simp [charListLt] at h
    | cons b bt =>
      simp only [charListLt] at h ⊢
      by_cases h1 : a.toNat < b.toNat
      · have h2 : ¬ b.toNat < a.toNat := by omega
        simp [h1, h2]
      · by_cases h2 : b.toNat < a.toNat
        · simp [h1, h2] at h
        · simp [h1, h2] at h ⊢
          exact ih bt h

theorem charListLt_antisymm : ∀ as bs, charListLt as bs = false →
    charListLt bs as = false → as = bs := by
  intro as
  induction as with
  | nil =>
    intro bs h1 h2
    cases bs with
    | nil => rfl
    | cons b bt => simp [charListLt] at h1
  | cons a at' ih =>
    intro bs h1 h2
    cases bs with
    | nil => simp [charListLt] at h2
    | cons b bt =>
      simp only [charListLt] at h1 h2
      by_cases hab : a.toNat < b.toNat
      · simp [hab] at h1
      · by_cases hba : b.toNat < a.toNat
        · simp [hab, hba] at h2
        · have hn : a.toNat = b.toNat := by omega
          have hc : a = b := Char.ext (UInt32.toNat.inj hn)
          simp [hab, hba] at h1 h2
          rw [hc, ih bt h1 h2]

theorem strLt_antisymm (a b : String) (h1 : strLt a b = false)
    (h2 : strLt b a = false) : a = b := by
  have h := charListLt_antisymm a.toList b.toList h1 h2
  cases a with
  | mk da =>
    cases b with
    | mk db =>
      simp [String.toList] at h
      rw [h]

theorem sortedPair_comm (a b : String) : sortedPair a b = sortedPair b a := by
  cases h1 : strLt b a <;> cases h2 : strLt a b
  case false.false =>
    have hab : a = b := strLt_antisymm a b h2 h1
    subst hab
    rfl
  case false.true => simp [sortedPair, h1, h2]
  case true.false => simp [sortedPair, h1, h2]
  case true.true =>
    have h3 := charListLt_asymm a.toList b.toList h2
    rw [strLt, h3] at h1
    cases h1

theorem h2hKey_comm (a b : String) : h2hKey a b = h2hKey b a := by
  unfold h2hKey
  rw [sortedPair_comm]

theorem getEntry_setEntry (m : List (String × H2HEntry)) (k kq : String)
    (v : H2HEntry) :
    getEntry (setEntry m k v) kq = if k = kq then some v else getEntry m kq := by
  induction m with
  | nil => simp [setEntry, getEntry]
  | cons hd t ih =>
    obtain ⟨a, b⟩ := hd
    by_cases hak : a = k
    · subst hak
      by_cases hkq : a = kq <;> simp [setEntry, getEntry, hkq]
    · by_cases haq : a = kq
      · subst haq
        have hk : ¬ k = a := fun h => hak h.symm
        simp [setEntry, getEntry, hak, hk]
      · simp [setEntry, getEntry, hak, haq, ih]

theorem entrySum_trackHeadToHead (m : List (String × H2HEntry)) (w l : BotInfo)
    (kq : String) :
    entrySum (trackHeadToHead m w l) kq =
      entrySum m kq + (if h2hKey w.username l.username = kq then 1 else 0) := by
  have hkeq : (sortedPair w.username l.username).1 ++ "-vs-"
      ++ (sortedPair w.username l.username).2 = h2hKey w.username l.username := rfl
  simp only [trackHeadToHead, entrySum, getEntry_setEntry, hkeq]
  by_cases hk : h2hKey w.username l.username = kq
  · rw [if_pos hk, if_pos hk, hk]
    cases hg : getEntry m kq with
    | none =>
      by_cases hw : w.username = (sortedPair w.username l.username).1
      · rw [if_pos hw]
        decide
      · rw [if_neg hw]
        decide
    | some en =>
      by_cases hw : w.username = (sortedPair w.username l.username).1
      · rw [if_pos hw]
        show en.wins + 1 + en.losses = en.wins + en.losses + 1
        omega
      · rw [if_neg hw]
        show en.wins + (en.losses + 1) = en.wins + en.losses + 1
        omega
  · rw [if_neg hk, if_neg hk]
    simp

theorem entrySum_foldl (ms : List (BotInfo × BotInfo)) (kq : String) :
    ∀ m, entrySum (ms.foldl (fun acc wl => trackHeadToHead acc wl.1 wl.2) m) kq =
      entrySum m kq +
        ms.countP (fun wl => h2hKey wl.1.username wl.2.username == kq) := by
  induction ms with
  | nil =>
    intro m
    simp
  | cons hd t ih =>
    intro m
    simp only [List.foldl_cons, List.countP_cons, ih, entrySum_trackHeadToHead]
    by_cases h : h2hKey hd.1.username hd.2.username = kq <;> simp [h] <;> omega

/-- C9 as amended: the key of the pair (A, B) and of (B, A) is the same
string, so both orders address the same stored entry; and after
accumulating one trackHeadToHead call per completed match (as the
tournament loop does), the entry's wins plus losses equals the number of
matches whose competitor pair is keyed like (A, B), not the number of
games inside those matches. -/
theorem h2h_symmetric_counts_matches (ms : List (BotInfo × BotInfo)) (A B : BotInfo) :
    h2hKey A.username B.username = h2hKey B.username A.username ∧
    entrySum (accumulateH2H ms) (h2hKey A.username B.username) =
      ms.countP (fun wl =>
        h2hKey wl.1.username wl.2.username == h2hKey A.username B.username) := by
  refine ⟨h2hKey_comm _ _, ?_⟩
  have h := entrySum_foldl ms (h2hKey A.username B.username) []
  simpa [accumulateH2H, entrySum, getEntry] using h

/-- C9 counterexample: one best-of-3 match that alice wins 2 games to 0.
Two games were played between alice and bob, but the tournament loop calls
trackHeadToHead once per match, so the stored entry sums to 1, not to the
number of games played. -/
theorem h2h_counts_matches_not_games_cex :
    playBotMatch botA botB
        [some (GameResultV.checkmate Color.w), some (GameResultV.checkmate Color.w)] =
      some ⟨botA, botB,
            [⟨botA, botB, GameWinReason.checkmate⟩, ⟨botA, botB, GameWinReason.checkmate⟩],
            [(botA, botB), (botA, botB)]⟩ ∧
    entrySum (trackHeadToHead [] botA botB) (h2hKey "alice" "bob") = 1 ∧
    entrySum (trackHeadToHead [] botA botB) (h2hKey "alice" "bob") ≠
      (playedOf (playBotMatch botA botB
        [some (GameResultV.checkmate Color.w),
         some (GameResultV.checkmate Color.w)])).length := by
  refine ⟨by decide, by decide, by decide⟩

/-! ## Game-loop classification development (C3) -/

/-- The number of finished notifications in an emission trace. -/
def countFinished (tr : List Emit) : Nat :=
  tr.countP (fun ev => ev.1 == GameStatus.finished)

theorem countFinished_append (t1 t2 : List Emit) :
    countFinished (t1 ++ t2) = countFinished t1 + countFinished t2 := by
  simp [countFinished, List.countP_append]

/-- finishGame computes exactly the terminalReason classification of the
spec: under the earlier branches of the if chain, the engine's final
isDraw test is equivalent to the fifty-move condition. -/
theorem finishResult_eq_terminalReason (o : RulesOracle) (fen : String) :
    finishResult o fen = terminalReason o fen := by
  unfold finishResult terminalReason RulesOracle.isDraw
  cases hcm : (o.flags fen).isCheckmate <;>
    cases hsm : (o.flags fen).isStalemate <;>
      cases h3 : (o.flags fen).isThreefoldRepetition <;>
        cases him : (o.flags fen).isInsufficientMaterial <;>
          cases h50 : (o.flags fen).fiftyMoves <;>
            simp [hcm, hsm, h3, him, h50]

/-- On an oracle-terminal position the classification is never null. -/
theorem terminalReason_isSome (o : RulesOracle) (fen : String)
    (h : o.isGameOver fen = true) : (terminalReason o fen).isSome = true := by
  unfold RulesOracle.isGameOver RulesOracle.isDraw at h
  unfold terminalReason
  cases hcm : (o.flags fen).isCheckmate <;>
    cases hsm : (o.flags fen).isStalemate <;>
      cases h3 : (o.flags fen).isThreefoldRepetition <;>
        cases him : (o.flags fen).isInsufficientMaterial <;>
          cases h50 : (o.flags fen).fiftyMoves <;>
            simp [hcm, hsm, h3, him, h50] at h ⊢

/-- The invariant one iteration of the move loop preserves: if it finished
the game the trace holds exactly one finished notification, it is the last
one, carries the state result, and on an oracle-terminal position that
result is the oracle classification; if it did not finish the game the
trace holds no finished notification and the position is not terminal. -/
def StepOK (o : RulesOracle) (e1 : Engine) (tr : List Emit) : Prop :=
  (e1.state.status = GameStatus.finished →
    countFinished tr = 1 ∧
    tr.getLast? = some (GameStatus.finished, e1.state.result) ∧
    (o.isGameOver e1.chessFen = true →
      e1.state.result = terminalReason o e1.chessFen)) ∧
  (e1.state.status ≠ GameStatus.finished →
    countFinished tr = 0 ∧ o.isGameOver e1.chessFen = false)

theorem StepOK_nonfinished_emit (o : RulesOracle) (e : Engine) (st : GameStatus)
    (r : GameResult) (hst : st ≠ GameStatus.finished)
    (hno : o.isGameOver e.chessFen = false) :
    StepOK o (e.emit o st r).1 (e.emit o st r).2 := by
  constructor
  · intro h
    exact absurd h hst
  · intro _
    refine ⟨?_, hno⟩
    simp [Engine.emit, countFinished, List.countP_cons, hst]

theorem StepOK_forfeit_emit (o : RulesOracle) (e : Engine) (turn : Color)
    (reason : ForfeitReason) (hno : o.isGameOver e.chessFen = false) :
    StepOK o
      (e.emit o GameStatus.finished (some (GameResultV.forfeit turn reason))).1
      (e.emit o GameStatus.finished (some (GameResultV.forfeit turn reason))).2 := by
  constructor
  · intro _
    refine ⟨by simp [Engine.emit, countFinished, List.countP_cons], rfl, ?_⟩
    intro hgo
    rw [show (e.emit o GameStatus.finished
        (some (GameResultV.forfeit turn reason))).1.chessFen = e.chessFen from rfl,
      hno] at hgo
    cases hgo
  · intro h
    exact absurd rfl h

theorem StepOK_finishGame (o : RulesOracle) (e : Engine) :
    StepOK o (e.finishGame o).1 (e.finishGame o).2 := by
  constructor
  · intro _
    refine ⟨by simp [Engine.finishGame, Engine.emit, countFinished, List.countP_cons],
      rfl, ?_⟩
    intro _
    exact finishResult_eq_terminalReason o e.chessFen
  · intro h
    exact absurd rfl h

/-- The status re-evaluation shared by executeBotMove and executeHumanMove
after a successful move application. -/
theorem StepOK_statusEmits (o : RulesOracle) (e1 : Engine) :
    StepOK o
      (if o.isGameOver e1.chessFen = true then e1.finishGame o
       else if e1.stepping = false then
         if e1.isHumanTurn o = true then e1.emit o GameStatus.waitingHuman none
         else e1.emit o GameStatus.running none
       else e1.emit o GameStatus.paused none).1
      (if o.isGameOver e1.chessFen = true then e1.finishGame o
       else if e1.stepping = false then
         if e1.isHumanTurn o = true then e1.emit o GameStatus.waitingHuman none
         else e1.emit o GameStatus.running none
       else e1.emit o GameStatus.paused none).2 := by
  by_cases hgo : o.isGameOver e1.chessFen = true
  · rw [if_pos hgo]
    exact StepOK_finishGame o e1
  · rw [if_neg hgo]
    have hno : o.isGameOver e1.chessFen = false := by
      cases h : o.isGameOver e1.chessFen
      · rfl
      · exact absurd h hgo
    by_cases hstep : e1.stepping = false
    · rw [if_pos hstep]
      by_cases hh : e1.isHumanTurn o = true
      · rw [if_pos hh]
        exact StepOK_nonfinished_emit o e1 GameStatus.waitingHuman none (by decide) hno
      · rw [if_neg hh]
        exact StepOK_nonfinished_emit o e1 GameStatus.running none (by decide) hno
    · rw [if_neg hstep]
      exact StepOK_nonfinished_emit o e1 GameStatus.paused none (by decide) hno

theorem StepOK_prepend (o : RulesOracle) (e2 : Engine) (tr : List Emit)
    (h : StepOK o e2 tr) (st : GameStatus) (r : GameResult)
    (hst : st ≠ GameStatus.finished) :
    StepOK o e2 ((st, r) :: tr) := by
  obtain ⟨hf, hnf⟩ := h
  have hcount : countFinished ((st, r) :: tr) = countFinished tr := by
    simp [countFinished, List.countP_cons, hst]
  constructor
  · intro hfin
    obtain ⟨hc, hl, hi⟩ := hf hfin
    refine ⟨by rw [hcount, hc], ?_, hi⟩
    cases tr with
    | nil => simp [countFinished] at hc
    | cons y ys => rw [List.getLast?_cons_cons, hl]
  · intro hn
    obtain ⟨hc, hg⟩ := hnf hn
    exact ⟨by rw [hcount, hc], hg⟩

theorem applyUci_spec (o : RulesOracle) (e : Engine) (turn : Color)
    (elapsed : Nat) (uci : String) (hno : o.isGameOver e.chessFen = false) :
    StepOK o (e.applyUci o turn elapsed uci).1 (e.applyUci o turn elapsed uci).2 := by
  unfold Engine.applyUci
  cases hm : o.move e.chessFen (uciFields uci).1 (uciFields uci).2.1 (uciFields uci).2.2 with
  | none =>
    simp only [hm]
    exact StepOK_forfeit_emit o e turn ForfeitReason.invalid hno
  | some mo =>
    simp only [hm]
    exact StepOK_statusEmits o
      { e with
        chessFen := mo.nextFen
        state := { e.state with
                   moves := e.state.moves ++
                     [{ moveNumber := (e.state.moves.length + 1) / 2 + 1
                        san := mo.san
                        uci := uci
                        fen := mo.nextFen
                        color := turn
                        timeMs := elapsed }]
                   lastMoveTimeMs := elapsed } }

theorem resolveBotRequest_spec (o : RulesOracle) (e : Engine) (turn : Color)
    (outcome : Except String String) (elapsed : Nat)
    (hno : o.isGameOver e.chessFen = false) :
    StepOK o (e.resolveBotRequest o turn outcome elapsed).1
      (e.resolveBotRequest o turn outcome elapsed).2 := by
  unfold Engine.resolveBotRequest
  cases outcome with
  | error msg =>
    dsimp only
    by_cases ht : jsIncludes msg "timeout" = true
    · rw [if_pos ht]
      exact StepOK_forfeit_emit o { e with pending := none } turn ForfeitReason.timeout hno
    · rw [if_neg ht]
      exact StepOK_forfeit_emit o { e with pending := none } turn ForfeitReason.invalid hno
  | ok uci => exact applyUci_spec o { e with pending := none } turn elapsed uci hno

theorem executeBotMove_spec (o : RulesOracle) (e : Engine) (turn : Color)
    (resp : BotResponse) (hno : o.isGameOver e.chessFen = false) :
    StepOK o (e.executeBotMove o turn resp).1 (e.executeBotMove o turn resp).2 := by
  unfold Engine.executeBotMove
  by_cases hw : e.workerFor turn = false
  · rw [if_pos hw]
    exact StepOK_forfeit_emit o e turn ForfeitReason.invalid hno
  · rw [if_neg hw]
    exact StepOK_prepend o _ _
      (resolveBotRequest_spec o _ turn _ resp.latencyMs hno)
      GameStatus.running none (by decide)

theorem submitHumanMove_false_eq (o : RulesOracle) (e : Engine) (fro tto : String)
    (promotion : Option String) (e2 : Engine)
    (h : e.submitHumanMove o fro tto promotion = (false, e2)) : e2 = e := by
  unfold Engine.submitHumanMove at h
  cases hm : o.move e.chessFen fro tto promotion <;> rw [hm] at h <;> simp at h
  exact h.symm

theorem executeHumanMove_spec (o : RulesOracle) (e : Engine) (fro tto : String)
    (promotion : Option String) (hno : o.isGameOver e.chessFen = false) :
    StepOK o (e.executeHumanMove o fro tto promotion).1
      (e.executeHumanMove o fro tto promotion).2 := by
  unfold Engine.executeHumanMove
  rcases hs : Engine.submitHumanMove o
      { (e.emit o GameStatus.waitingHuman none).1 with humanMovePending := true }
      fro tto promotion with ⟨ok, e2⟩
  dsimp only at hs ⊢
  rw [hs]
  cases ok with
  | false =>
    have he2 : e2 = { (e.emit o GameStatus.waitingHuman none).1 with
        humanMovePending := true } := submitHumanMove_false_eq o _ fro tto promotion e2 hs
    subst he2
    rw [if_pos rfl]
    constructor
    · intro h
      simp [Engine.emit, Engine.buildState] at h
    · intro _
      exact ⟨rfl, hno⟩
  | true =>
    rw [if_neg (by decide : ¬ true = false)]
    exact StepOK_prepend o _ _ (StepOK_statusEmits o e2)
      GameStatus.waitingHuman none (by decide)

theorem executeSingleMove_spec (o : RulesOracle) (e : Engine) (inp : TurnInput)
    (hno : o.isGameOver e.chessFen = false) :
    StepOK o (e.executeSingleMove o inp).1 (e.executeSingleMove o inp).2 := by
  unfold Engine.executeSingleMove
  cases hturn : (o.flags e.chessFen).turn with
  | w =>
    cases hp : e.state.whitePlayer with
    | none =>
      dsimp only
      exact StepOK_forfeit_emit o e Color.w ForfeitReason.invalid hno
    | some p =>
      dsimp only
      by_cases hh : p.ptype = PlayerType.human
      · rw [if_pos hh]
        cases inp with
        | human fro tto promotion => exact executeHumanMove_spec o e fro tto promotion hno
        | bot resp =>
          constructor
          · intro h
            simp [Engine.emit, Engine.buildState] at h
          · intro _
            exact ⟨rfl, hno⟩
      · rw [if_neg hh]
        cases inp with
        | bot resp => exact executeBotMove_spec o e Color.w resp hno
        | human fro tto promotion =>
          exact executeBotMove_spec o e Color.w { latencyMs := 0, reply := none } hno
  | b =>
    cases hp : e.state.blackPlayer with
    | none =>
      dsimp only
      exact StepOK_forfeit_emit o e Color.b ForfeitReason.invalid hno
    | some p =>
      dsimp only
      by_cases hh : p.ptype = PlayerType.human
      · rw [if_pos hh]
        cases inp with
        | human fro tto promotion => exact executeHumanMove_spec o e fro tto promotion hno
        | bot resp =>
          constructor
          · intro h
            simp [Engine.emit, Engine.buildState] at h
          · intro _
            exact ⟨rfl, hno⟩
      · rw [if_neg hh]
        cases inp with
        | bot resp => exact executeBotMove_spec o e Color.b resp hno
        | human fro tto promotion =>
          exact executeBotMove_spec o e Color.b { latencyMs := 0, reply := none } hno

theorem gameLoop_spec (o : RulesOracle) (script : List TurnInput) : ∀ e : Engine,
    o.isGameOver (Engine.gameLoop o e script).1.chessFen = true →
    countFinished (Engine.gameLoop o e script).2 = 1 ∧
    (Engine.gameLoop o e script).2.getLast? =
      some (GameStatus.finished,
        terminalReason o (Engine.gameLoop o e script).1.chessFen) := by
  induction script with
  | nil =>
    intro e hg
    by_cases hgo : o.isGameOver e.chessFen = true
    · simp only [Engine.gameLoop, hgo, if_true]
      refine ⟨rfl, ?_⟩
      simp only [Engine.finishGame, Engine.emit, List.getLast?_cons_cons]
      rw [finishResult_eq_terminalReason]
      rfl
    · simp only [Engine.gameLoop, hgo, if_false] at hg
      exact absurd hg hgo
  | cons inp rest ih =>
    intro e hg
    by_cases hgo : o.isGameOver e.chessFen = true
    · simp only [Engine.gameLoop, hgo, if_true] at hg ⊢
      refine ⟨rfl, ?_⟩
      simp only [Engine.finishGame, Engine.emit]
      rw [finishResult_eq_terminalReason]
      rfl
    · have hno : o.isGameOver e.chessFen = false := by
        cases h : o.isGameOver e.chessFen
        · rfl
        · exact absurd h hgo
      simp only [Engine.gameLoop] at hg ⊢
      rw [if_neg hgo] at hg ⊢
      have hstep := executeSingleMove_spec o e inp hno
      by_cases hfin : (e.executeSingleMove o inp).1.state.status = GameStatus.finished
      · rw [if_pos hfin] at hg ⊢
        obtain ⟨hf, _⟩ := hstep
        obtain ⟨hc, hl, hi⟩ := hf hfin
        exact ⟨hc, by rw [hl, hi hg]⟩
      · rw [if_neg hfin] at hg ⊢
        obtain ⟨_, hnf⟩ := hstep
        obtain ⟨hc0, _⟩ := hnf hfin
        have ihh := ih (e.executeSingleMove o inp).1 hg
        refine ⟨?_, ?_⟩
        · rw [countFinished_append, hc0, ihh.1]
        · have htr2 : (Engine.gameLoop o (e.executeSingleMove o inp).1 rest).2 ≠ [] := by
            intro hnil
            have := ihh.1
            rw [hnil] at this
            simp [countFinished] at this
          rw [List.getLast?_append_of_ne_nil _ htr2]
          exact ihh.2

/-- C3: every run of the move loop whose final position the Rules Oracle
classifies as terminal emits the finished status exactly once; that
notification is the last one, carries a non-null GameResult, and the
result equals the oracle terminalReason classification of the final
position (checkmate awarded to the side opposite the one to move,
stalemate, repetition, insufficient material or fifty-move draw). -/
theorem gameLoop_oracle_classification (o : RulesOracle) (e : Engine)
    (script : List TurnInput)
    (hterm : o.isGameOver (Engine.gameLoop o e script).1.chessFen = true) :
    countFinished (Engine.gameLoop o e script).2 = 1 ∧
    (Engine.gameLoop o e script).2.getLast? =
      some (GameStatus.finished,
        terminalReason o (Engine.gameLoop o e script).1.chessFen) ∧
    (terminalReason o (Engine.gameLoop o e script).1.chessFen).isSome = true := by
  obtain ⟨h1, h2⟩ := gameLoop_spec o script e hterm
  exact ⟨h1, h2, terminalReason_isSome o _ hterm⟩

/-- A position flagged as checkmate with white to move, reached from the
initial position by the single scripted reply e2e4. -/
def mateFen : String := "rnb1kbnr/pppp1ppp/8/4p3/6Pq/5P2/PPPPP2P/RNBQKBNR w KQkq - 1 3"

def oMate : RulesOracle :=
  { flags := fun fen =>
      if fen = mateFen then
        { isCheckmate := true, isStalemate := false, isThreefoldRepetition := false
          isInsufficientMaterial := false, fiftyMoves := false, turn := Color.w }
      else
        { isCheckmate := false, isStalemate := false, isThreefoldRepetition := false
          isInsufficientMaterial := false, fiftyMoves := false, turn := Color.w }
    move := fun fen fro tto promotion =>
      if fen = INITIAL_FEN ∧ fro = "e2" ∧ tto = "e4" ∧ promotion = none then
        some { san := "e4", color := Color.w, nextFen := mateFen }
      else none }

def mateScript : List TurnInput :=
  [TurnInput.bot { latencyMs := 50, reply := some (WorkerReply.result "e2e4") }]

theorem gameLoop_oracle_classification_witness :
    countFinished (Engine.gameLoop oMate engW mateScript).2 = 1 ∧
    (Engine.gameLoop oMate engW mateScript).2.getLast? =
      some (GameStatus.finished,
        terminalReason oMate (Engine.gameLoop oMate engW mateScript).1.chessFen) ∧
    (terminalReason oMate (Engine.gameLoop oMate engW mateScript).1.chessFen).isSome =
      true :=
  gameLoop_oracle_classification oMate engW mateScript (by decide)
